import Mathlib

/-!
# Verification of the image bot's catalog store and handlers

Shallow embedding of `src/bot.py` (class `ImageBot`): a name→path catalog
persisted in SQLite (`init_db`, `find_image`, `save_image`) and the two
message handlers `handle_upload` and `handle_request`.

Modelling decisions, each tied to the line of source it embeds:
* Python `str.lower()` is modelled characterwise with `Char.toLower`
  (ASCII case folding); `str.strip()` drops leading and trailing
  whitespace on both ends, with `Char.isWhitespace` as the whitespace set.
* The SQLite table `images (id INTEGER PRIMARY KEY, name TEXT NOT NULL
  UNIQUE, file_path TEXT NOT NULL)` is a list of records in rowid order.
  `INSERT OR REPLACE` follows SQLite's documented semantics: the fresh
  rowid is one greater than the largest rowid present at the start of the
  statement, and rows conflicting on the UNIQUE `name` column are deleted
  before the new row is inserted.  (Checked against SQLite itself: after
  `INSERT OR REPLACE` on an existing name the row reappears with a new id.)
* The filesystem is the set (as a list) of paths that exist. Telegram's
  `get_file(file_id).download(filepath)` is external; its one attempt is
  an oracle.  `handle_upload_pw` uses the three-valued oracle `DlOutcome`
  (success; failure raising before the target file is created, as for a
  network error or `open` failing on a read-only directory; failure
  raising after the file was opened and partially written, as when the
  disk fills).  The `except` branch of bot.py lines 95-96 does no cleanup
  — no remove/unlink exists in the file — so a partially written file
  stays on disk.  `handle_upload` is the same handler restricted to
  downloads that never leave a partial file, with a Bool oracle;
  `upload_loop_pw_agrees` relates the two.
* Config values (`ADMIN_ID`, `IMAGES_DIR`, `ALLOWED_EXTENSIONS`) come from
  `config.py`, which is external; they are parameters of the model.
-/

namespace ImageBot

/-- Python `s.lower()` (bot.py lines 30, 40, 46, 72, 102), ASCII folding. -/
def pyLower (s : String) : String := ⟨s.data.map Char.toLower⟩

/-- Uppercasing, used to state the case-insensitivity claims. -/
def pyUpper (s : String) : String := ⟨s.data.map Char.toUpper⟩

/-- Drop leading whitespace, then trailing whitespace. -/
def stripList (l : List Char) : List Char :=
  ((l.dropWhile Char.isWhitespace).reverse.dropWhile Char.isWhitespace).reverse

/-- Python `s.strip()` (bot.py lines 72, 102). -/
def pyStrip (s : String) : String := ⟨stripList s.data⟩

/-- A row of the `images` table (bot.py lines 16-21). -/
structure ImageRecord where
  id : Nat
  name : String
  file_path : String
deriving Repr, DecidableEq

/-- The `images` table, rows in rowid order. -/
abbrev Table := List ImageRecord

/-- `init_db` (bot.py lines 13-22): `CREATE TABLE IF NOT EXISTS` creates an
empty table when none exists and leaves an existing table unchanged. -/
def init_db (t : Option Table) : Table := t.getD []

/-- Largest rowid present in the table (0 when empty). -/
def maxId (t : Table) : Nat := t.foldr (fun r m => max r.id m) 0

/-- `find_image` (bot.py lines 24-33): `SELECT file_path FROM images WHERE
name = ?` with the key lowercased; `fetchone` yields the unique match. -/
def find_image (t : Table) (name : String) : Option String :=
  (t.find? fun r => r.name == pyLower name).map ImageRecord.file_path

/-- `save_image` (bot.py lines 35-41): `INSERT OR REPLACE INTO images
(name, file_path) VALUES (?, ?)` with the name lowercased.  SQLite picks
the fresh rowid `maxId t + 1` first, deletes the rows conflicting on
`name`, then inserts the new row. -/
def save_image (t : Table) (name file_path : String) : Table :=
  (t.filter fun r => r.name != pyLower name) ++
    [⟨maxId t + 1, pyLower name, file_path⟩]

/-- External configuration (imported from `config.py`, bot.py line 4). -/
structure Config where
  ADMIN_ID : Int
  IMAGES_DIR : String
  ALLOWED_EXTENSIONS : List String

/-- `os.path.join(IMAGES_DIR, filename)` (bot.py lines 47, 85), for a
directory without a trailing separator. -/
def pathJoin (dir filename : String) : String := dir ++ "/" ++ filename

/-- The parts of a Telegram message the handlers read: sender id, the
photo-size list, the optional document, the optional caption. -/
structure UploadMsg where
  from_id : Int
  photo : List String
  document : Option String
  caption : Option String
deriving Repr, DecidableEq

/-- What `handle_upload` leaves behind: the single reply it sent, the
`images` table and the set of files on disk (bot.py lines 62-98). -/
structure UploadResult where
  reply : String
  db : Table
  fs : List String
deriving Repr, DecidableEq

/-- `photo[-1].file_id if photo else document.file_id` (bot.py lines
78-79); the document branch is only reached when a document is present. -/
def uploadFileId (msg : UploadMsg) : String :=
  match msg.photo.getLast? with
  | some fid => fid
  | none => msg.document.getD ""

/-- The `for ext in ALLOWED_EXTENSIONS` retry loop (bot.py lines 82-98):
the first extension whose download succeeds creates the file, upserts the
record and replies with the saved filename; a failed attempt is swallowed
and the next extension is tried; when all fail, an error is the reply and
nothing was changed. -/
def upload_loop (cfg : Config) (dl : String → String → Bool)
    (file_id base_name : String) (db : Table) (fs : List String) :
    List String → UploadResult
  | [] => ⟨"❌ Не удалось сохранить файл", db, fs⟩
  | ext :: rest =>
    let filename := base_name ++ ext
    let filepath := pathJoin cfg.IMAGES_DIR filename
    if dl file_id filepath then
      ⟨"✅ Сохранено как: " ++ filename, save_image db base_name filepath,
        if filepath ∈ fs then fs else filepath :: fs⟩
    else
      upload_loop cfg dl file_id base_name db fs rest

/-- `handle_upload` (bot.py lines 62-98): admin check, attachment check
(`not (photo or document)` — empty list and `None` are falsy), caption
check (`(caption or "").strip().lower()` empty), then the retry loop. -/
def handle_upload (cfg : Config) (dl : String → String → Bool)
    (msg : UploadMsg) (db : Table) (fs : List String) : UploadResult :=
  if msg.from_id ≠ cfg.ADMIN_ID then ⟨"🚫 Только для админа", db, fs⟩
  else if msg.photo = [] ∧ msg.document = none then
    ⟨"❌ Отправьте изображение с названием", db, fs⟩
  else if pyLower (pyStrip (msg.caption.getD "")) = "" then
    ⟨"❌ Укажите название в подписи", db, fs⟩
  else upload_loop cfg dl (uploadFileId msg)
    (pyLower (pyStrip (msg.caption.getD ""))) db fs cfg.ALLOWED_EXTENSIONS

/-- A reply from `handle_request`: either the streamed image or text. -/
inductive Reply
  | photo (path : String)
  | text (s : String)
deriving Repr, DecidableEq

/-- `handle_request` (bot.py lines 100-109): strip and lowercase the text,
look the name up, and stream the file back when the stored path is truthy
(Python: a non-empty string) and exists on disk; otherwise reply
not-found. -/
def handle_request (db : Table) (fs : List String) (text : String) :
    Reply :=
  match find_image db (pyLower (pyStrip text)) with
  | some filepath =>
    if filepath ≠ "" ∧ filepath ∈ fs then .photo filepath
    else .text "❌ Изображение не найдено"
  | none => .text "❌ Изображение не найдено"

/-- Outcome of one external download attempt (bot.py line 88): the call
either succeeds and leaves the file at the target path, raises before
the target file is created (`get_file` or the network retrieval failing,
or `open` failing on a read-only directory), or raises after the file
was opened and partially written (e.g. the disk filling up). -/
inductive DlOutcome
  | ok
  | failClean
  | failPartial
deriving Repr, DecidableEq

/-- The retry loop of bot.py lines 82-98 with the downloader's failure
mode explicit.  The `except` branch (lines 95-96) swallows the error and
continues with the next extension performing no cleanup — bot.py
contains no remove/unlink — so a file partially written by a failed
attempt stays on disk.  `upload_loop` is this loop restricted to
downloads that never leave a partial file (`upload_loop_pw_agrees`). -/
def upload_loop_pw (cfg : Config) (dl : String → String → DlOutcome)
    (file_id base_name : String) (db : Table) (fs : List String) :
    List String → UploadResult
  | [] => ⟨"❌ Не удалось сохранить файл", db, fs⟩
  | ext :: rest =>
    let filename := base_name ++ ext
    let filepath := pathJoin cfg.IMAGES_DIR filename
    match dl file_id filepath with
    | .ok =>
      ⟨"✅ Сохранено как: " ++ filename, save_image db base_name filepath,
        if filepath ∈ fs then fs else filepath :: fs⟩
    | .failClean => upload_loop_pw cfg dl file_id base_name db fs rest
    | .failPartial =>
      upload_loop_pw cfg dl file_id base_name db
        (if filepath ∈ fs then fs else filepath :: fs) rest

/-- `handle_upload` (bot.py lines 62-98) over the partial-write-aware
download oracle: the guard chain is identical to `handle_upload`. -/
def handle_upload_pw (cfg : Config) (dl : String → String → DlOutcome)
    (msg : UploadMsg) (db : Table) (fs : List String) : UploadResult :=
  if msg.from_id ≠ cfg.ADMIN_ID then ⟨"🚫 Только для админа", db, fs⟩
  else if msg.photo = [] ∧ msg.document = none then
    ⟨"❌ Отправьте изображение с названием", db, fs⟩
  else if pyLower (pyStrip (msg.caption.getD "")) = "" then
    ⟨"❌ Укажите название в подписи", db, fs⟩
  else upload_loop_pw cfg dl (uploadFileId msg)
    (pyLower (pyStrip (msg.caption.getD ""))) db fs cfg.ALLOWED_EXTENSIONS

/-- The schema invariant the store maintains (bot.py lines 16-22, 40):
the UNIQUE constraint keeps stored names distinct, and every write goes
through `name.lower()`, so stored names are their own case-folding. -/
def WF (t : Table) : Prop :=
  (t.map ImageRecord.name).Nodup ∧ ∀ r ∈ t, pyLower r.name = r.name

/-- Number of records of `t` whose stored name is `key`. -/
def countFor (t : Table) (key : String) : Nat :=
  (t.filter fun r => r.name == key).length

/-- `allWhitespace s` says every character of `s` is whitespace. -/
abbrev allWhitespace (s : String) : Prop :=
  ∀ c ∈ s.data, c.isWhitespace = true

theorem toNat_ofNat_of_valid (n : Nat) (h : n.isValidChar) :
    (Char.ofNat n).toNat = n := by
  rw [Char.ofNat, dif_pos h]
  rfl

theorem char_toLower_toUpper (c : Char) : c.toUpper.toLower = c.toLower := by
  by_cases h : c.toNat ≥ 97 ∧ c.toNat ≤ 122
  · have hval : (c.toNat - 32).isValidChar := Or.inl (by omega)
    have h1 : c.toUpper = Char.ofNat (c.toNat - 32) := by
      rw [Char.toUpper, if_pos h]
    have h2 : (Char.ofNat (c.toNat - 32)).toNat = c.toNat - 32 :=
      toNat_ofNat_of_valid _ hval
    rw [h1, Char.toLower, h2, if_pos (by omega)]
    rw [Char.toLower, if_neg (by omega)]
    have h3 : c.toNat - 32 + 32 = c.toNat := by omega
    rw [h3, Char.ofNat_toNat]
  · have hu : c.toUpper = c := by rw [Char.toUpper, if_neg h]
    rw [hu]

theorem char_toLower_toLower (c : Char) : c.toLower.toLower = c.toLower := by
  by_cases h : c.toNat ≥ 65 ∧ c.toNat ≤ 90
  · have hval : (c.toNat + 32).isValidChar := Or.inl (by omega)
    have h1 : c.toLower = Char.ofNat (c.toNat + 32) := by
      rw [Char.toLower, if_pos h]
    have h2 : (Char.ofNat (c.toNat + 32)).toNat = c.toNat + 32 :=
      toNat_ofNat_of_valid _ hval
    rw [h1, Char.toLower, h2, if_neg (by omega)]
  · have hl : c.toLower = c := by rw [Char.toLower, if_neg h]
    rw [hl]
    exact hl

theorem pyLower_pyUpper (s : String) : pyLower (pyUpper s) = pyLower s := by
  unfold pyLower pyUpper
  congr 1
  rw [List.map_map]
  exact List.map_congr_left fun c _ => char_toLower_toUpper c

theorem pyLower_pyLower (s : String) : pyLower (pyLower s) = pyLower s := by
  unfold pyLower
  congr 1
  rw [List.map_map]
  exact List.map_congr_left fun c _ => char_toLower_toLower c

theorem find?_save_image (t : Table) (n p : String) :
    ((save_image t n p).find? fun r => r.name == pyLower n) =
      some ⟨maxId t + 1, pyLower n, p⟩ := by
  unfold save_image
  rw [List.find?_append]
  have hnone : ((t.filter fun r => r.name != pyLower n).find?
      fun r => r.name == pyLower n) = none := by
    rw [List.find?_eq_none]
    intro r hr
    have h2 := (List.mem_filter.mp hr).2
    simpa using h2
  rw [hnone]
  simp

theorem find_image_save_image (t : Table) (n m p : String)
    (h : pyLower m = pyLower n) :
    find_image (save_image t n p) m = some p := by
  unfold find_image
  rw [h, find?_save_image]
  rfl

theorem filter_save_image (t : Table) (n p : String) :
    ((save_image t n p).filter fun r => r.name == pyLower n) =
      [⟨maxId t + 1, pyLower n, p⟩] := by
  unfold save_image
  rw [List.filter_append]
  have h1 : ((t.filter fun r => r.name != pyLower n).filter
      fun r => r.name == pyLower n) = [] := by
    rw [List.filter_eq_nil_iff]
    intro r hr
    have h2 := (List.mem_filter.mp hr).2
    simpa using h2
  rw [h1]
  simp

theorem WF_save_image (t : Table) (n p : String) (h : WF t) :
    WF (save_image t n p) := by
  obtain ⟨h1, h2⟩ := h
  constructor
  · rw [save_image, List.map_append, List.nodup_append]
    refine ⟨(h1.sublist (List.filter_sublist t |>.map _)), by simp, ?_⟩
    intro a ha hb
    simp only [List.map_cons, List.map_nil, List.mem_singleton] at hb
    subst hb
    obtain ⟨r, hr, hra⟩ := List.mem_map.mp ha
    have h3 := (List.mem_filter.mp hr).2
    simp only [bne_iff_ne, ne_eq] at h3
    exact h3 hra
  · intro r hr
    rw [save_image, List.mem_append] at hr
    rcases hr with hr | hr
    · exact h2 r (List.mem_filter.mp hr).1
    · simp only [List.mem_singleton] at hr
      subst hr
      exact pyLower_pyLower n

theorem WF_nodup_folded (t : Table) (h : WF t) :
    (t.map fun r => pyLower r.name).Nodup := by
  obtain ⟨h1, h2⟩ := h
  have : (t.map fun r => pyLower r.name) = t.map ImageRecord.name :=
    List.map_congr_left fun r hr => h2 r hr
  rw [this]
  exact h1

theorem pyStrip_all_whitespace (s : String) (h : allWhitespace s) :
    pyStrip s = "" := by
  unfold pyStrip stripList
  have hd : s.data.dropWhile Char.isWhitespace = [] :=
    List.dropWhile_eq_nil_iff.mpr h
  rw [hd]
  rfl

theorem stripList_pad (w1 w2 s : List Char)
    (h1 : ∀ c ∈ w1, c.isWhitespace = true)
    (h2 : ∀ c ∈ w2, c.isWhitespace = true) :
    stripList (w1 ++ s ++ w2) = stripList s := by
  unfold stripList
  rw [List.append_assoc, List.dropWhile_append_of_pos h1]
  cases hd : s.dropWhile Char.isWhitespace with
  | nil =>
    have hsw : ∀ c ∈ s, c.isWhitespace = true :=
      List.dropWhile_eq_nil_iff.mp hd
    have hz : (s ++ w2).dropWhile Char.isWhitespace = [] := by
      rw [List.dropWhile_append_of_pos hsw]
      exact List.dropWhile_eq_nil_iff.mpr h2
    rw [hz]
  | cons c cs =>
    have hcw : (s ++ w2).dropWhile Char.isWhitespace = (c :: cs) ++ w2 := by
      rw [List.dropWhile_append, hd]
      simp
    rw [hcw, List.reverse_append,
      List.dropWhile_append_of_pos (fun a ha => h2 a (List.mem_reverse.mp ha))]

theorem pyStrip_pad (w1 w2 s : String)
    (h1 : allWhitespace w1) (h2 : allWhitespace w2) :
    pyStrip (w1 ++ s ++ w2) = pyStrip s := by
  unfold pyStrip
  congr 1
  rw [String.data_append, String.data_append]
  exact stripList_pad w1.data w2.data s.data h1 h2

theorem upload_loop_pw_agrees (cfg : Config)
    (dl : String → String → DlOutcome) (fid base : String) (db : Table)
    (exts : List String) :
    ∀ fs : List String,
    (∀ ext ∈ exts, dl fid (pathJoin cfg.IMAGES_DIR (base ++ ext)) ≠
      DlOutcome.failPartial) →
    upload_loop_pw cfg dl fid base db fs exts =
      upload_loop cfg (fun f p => dl f p == DlOutcome.ok) fid base db fs
        exts := by
  induction exts with
  | nil =>
    intro fs _
    rfl
  | cons x rest ih =>
    intro fs h
    rw [upload_loop_pw, upload_loop]
    cases hdx : dl fid (pathJoin cfg.IMAGES_DIR (base ++ x)) with
    | ok => simp [hdx]
    | failClean =>
      simp only [hdx]
      simp only [beq_iff_eq, reduceCtorEq, if_false]
      exact ih fs fun e he => h e (List.mem_cons_of_mem x he)
    | failPartial => exact absurd hdx (h x (List.mem_cons_self x rest))

theorem upload_loop_pw_all_fail (cfg : Config)
    (dl : String → String → DlOutcome) (fid base : String) (db : Table)
    (exts : List String) :
    ∀ fs : List String,
    (∀ ext ∈ exts,
      dl fid (pathJoin cfg.IMAGES_DIR (base ++ ext)) ≠ DlOutcome.ok) →
    (upload_loop_pw cfg dl fid base db fs exts).reply =
        "❌ Не удалось сохранить файл" ∧
    (upload_loop_pw cfg dl fid base db fs exts).db = db ∧
    fs ⊆ (upload_loop_pw cfg dl fid base db fs exts).fs ∧
    (∀ q ∈ (upload_loop_pw cfg dl fid base db fs exts).fs, q ∈ fs ∨
      ∃ ext ∈ exts, q = pathJoin cfg.IMAGES_DIR (base ++ ext) ∧
        dl fid q = DlOutcome.failPartial) ∧
    (∀ ext ∈ exts,
      dl fid (pathJoin cfg.IMAGES_DIR (base ++ ext)) =
        DlOutcome.failPartial →
      pathJoin cfg.IMAGES_DIR (base ++ ext) ∈
        (upload_loop_pw cfg dl fid base db fs exts).fs) ∧
    ((∀ ext ∈ exts,
      dl fid (pathJoin cfg.IMAGES_DIR (base ++ ext)) =
        DlOutcome.failClean) →
      (upload_loop_pw cfg dl fid base db fs exts).fs = fs) := by
  induction exts with
  | nil =>
    intro fs _
    refine ⟨rfl, rfl, fun q hq => hq, fun q hq => Or.inl hq, ?_,
      fun _ => rfl⟩
    intro ext hext
    exact absurd hext (List.not_mem_nil ext)
  | cons x rest ih =>
    intro fs h
    cases hdx : dl fid (pathJoin cfg.IMAGES_DIR (base ++ x)) with
    | ok => exact absurd hdx (h x (List.mem_cons_self x rest))
    | failClean =>
      have hstep : upload_loop_pw cfg dl fid base db fs (x :: rest) =
          upload_loop_pw cfg dl fid base db fs rest := by
        rw [upload_loop_pw]
        simp only [hdx]
      obtain ⟨r1, r2, r3, r4, r5, r6⟩ :=
        ih fs fun e he => h e (List.mem_cons_of_mem x he)
      rw [hstep]
      refine ⟨r1, r2, r3, ?_, ?_, ?_⟩
      · intro q hq
        rcases r4 q hq with hq | ⟨e, he, hqe, hqp⟩
        · exact Or.inl hq
        · exact Or.inr ⟨e, List.mem_cons_of_mem x he, hqe, hqp⟩
      · intro e he hep
        rcases List.mem_cons.mp he with he | he
        · subst he
          rw [hdx] at hep
          exact DlOutcome.noConfusion hep
        · exact r5 e he hep
      · intro hall
        exact r6 fun e he => hall e (List.mem_cons_of_mem x he)
    | failPartial =>
      have hstep : upload_loop_pw cfg dl fid base db fs (x :: rest) =
          upload_loop_pw cfg dl fid base db
            (if pathJoin cfg.IMAGES_DIR (base ++ x) ∈ fs then fs
              else pathJoin cfg.IMAGES_DIR (base ++ x) :: fs) rest := by
        rw [upload_loop_pw]
        simp only [hdx]
      have hsub : fs ⊆
          (if pathJoin cfg.IMAGES_DIR (base ++ x) ∈ fs then fs
            else pathJoin cfg.IMAGES_DIR (base ++ x) :: fs) := by
        by_cases hm : pathJoin cfg.IMAGES_DIR (base ++ x) ∈ fs
        · rw [if_pos hm]
          exact fun q hq => hq
        · rw [if_neg hm]
          exact List.subset_cons_self _ _
      have hxm : pathJoin cfg.IMAGES_DIR (base ++ x) ∈
          (if pathJoin cfg.IMAGES_DIR (base ++ x) ∈ fs then fs
            else pathJoin cfg.IMAGES_DIR (base ++ x) :: fs) := by
        by_cases hm : pathJoin cfg.IMAGES_DIR (base ++ x) ∈ fs
        · rw [if_pos hm]
          exact hm
        · rw [if_neg hm]
          exact List.mem_cons_self _ _
      obtain ⟨r1, r2, r3, r4, r5, r6⟩ :=
        ih _ fun e he => h e (List.mem_cons_of_mem x he)
      rw [hstep]
      refine ⟨r1, r2, fun q hq => r3 (hsub hq), ?_, ?_, ?_⟩
      · intro q hq
        rcases r4 q hq with hq | ⟨e, he, hqe, hqp⟩
        · by_cases hm : pathJoin cfg.IMAGES_DIR (base ++ x) ∈ fs
          · rw [if_pos hm] at hq
            exact Or.inl hq
          · rw [if_neg hm] at hq
            rcases List.mem_cons.mp hq with hq | hq
            · refine Or.inr ⟨x, List.mem_cons_self x rest, hq, ?_⟩
              rw [hq]
              exact hdx
            · exact Or.inl hq
        · exact Or.inr ⟨e, List.mem_cons_of_mem x he, hqe, hqp⟩
      · intro e he hep
        rcases List.mem_cons.mp he with he | he
        · subst he
          exact r3 hxm
        · exact r5 e he hep
      · intro hall
        have hc := hall x (List.mem_cons_self x rest)
        rw [hdx] at hc
        exact DlOutcome.noConfusion hc

theorem handle_upload_pw_guards_pass (cfg : Config)
    (dl : String → String → DlOutcome) (msg : UploadMsg) (db : Table)
    (fs : List String)
    (h1 : msg.from_id = cfg.ADMIN_ID)
    (h2 : ¬(msg.photo = [] ∧ msg.document = none))
    (h3 : pyLower (pyStrip (msg.caption.getD "")) ≠ "") :
    handle_upload_pw cfg dl msg db fs =
      upload_loop_pw cfg dl (uploadFileId msg)
        (pyLower (pyStrip (msg.caption.getD ""))) db fs
        cfg.ALLOWED_EXTENSIONS := by
  rw [handle_upload_pw, if_neg (by simp [h1]), if_neg h2, if_neg h3]

theorem upload_loop_first_success (cfg : Config)
    (dl : String → String → Bool) (fid base : String) (db : Table)
    (fs : List String) (exts : List String) (e : String)
    (h : exts.find? (fun x => dl fid (pathJoin cfg.IMAGES_DIR (base ++ x)))
      = some e) :
    upload_loop cfg dl fid base db fs exts =
      ⟨"✅ Сохранено как: " ++ (base ++ e),
        save_image db base (pathJoin cfg.IMAGES_DIR (base ++ e)),
        if pathJoin cfg.IMAGES_DIR (base ++ e) ∈ fs then fs
        else pathJoin cfg.IMAGES_DIR (base ++ e) :: fs⟩ := by
  induction exts with
  | nil => simp at h
  | cons x rest ih =>
    rw [List.find?_cons] at h
    by_cases hx : dl fid (pathJoin cfg.IMAGES_DIR (base ++ x)) = true
    · rw [upload_loop]
      simp only [hx] at h ⊢
      rw [Option.some_inj] at h
      subst h
      rfl
    · rw [upload_loop]
      simp only [Bool.not_eq_true] at hx
      simp only [hx] at h ⊢
      exact ih h

theorem handle_upload_guards_pass (cfg : Config)
    (dl : String → String → Bool) (msg : UploadMsg) (db : Table)
    (fs : List String)
    (h1 : msg.from_id = cfg.ADMIN_ID)
    (h2 : ¬(msg.photo = [] ∧ msg.document = none))
    (h3 : pyLower (pyStrip (msg.caption.getD "")) ≠ "") :
    handle_upload cfg dl msg db fs =
      upload_loop cfg dl (uploadFileId msg)
        (pyLower (pyStrip (msg.caption.getD ""))) db fs
        cfg.ALLOWED_EXTENSIONS := by
  rw [handle_upload, if_neg (by simp [h1]), if_neg h2, if_neg h3]

/-- C1: `save_image(n, p)` followed by `find_image(n)` returns `p`, and
`find_image` of the uppercase of `n` also returns `p`: both operations
case-fold the name before touching the store (bot.py lines 30, 40). -/
theorem upsert_lookup_roundtrip_case_insensitive (t : Table)
    (n p : String) :
    find_image (save_image t n p) n = some p ∧
    find_image (save_image t n p) (pyUpper n) = some p :=
  ⟨find_image_save_image t n n p rfl,
   find_image_save_image t n (pyUpper n) p (pyLower_pyUpper n)⟩

/-- C2: `save_image(n, p1)` then `save_image(n, p2)` makes
`find_image(n)` return `p2`, never `p1` (distinct from `p2`): the later
upsert fully replaces the earlier mapping (bot.py lines 35-41). -/
theorem upsert_overwrite (t : Table) (n p1 p2 : String) :
    find_image (save_image (save_image t n p1) n p2) n = some p2 ∧
    (find_image (save_image (save_image t n p1) n p2) n = some p1 →
      p1 = p2) := by
  have h := find_image_save_image (save_image t n p1) n n p2 rfl
  refine ⟨h, fun h1 => ?_⟩
  rw [h] at h1
  exact (Option.some_inj.mp h1).symm

/-- C2 witness: the general theorem applied at a concrete store. -/
theorem upsert_overwrite_witness :
    find_image (save_image (save_image [] "Cat" "x.jpg") "Cat" "y.jpg")
      "Cat" = some "y.jpg" :=
  (upsert_overwrite [] "Cat" "x.jpg" "y.jpg").1

/-- C3: at most one record per distinct case-folded name: the empty
catalog satisfies the invariant `WF`, `init_db` and `save_image` preserve
it (`find_image` does not change the state at all, being a function of
the table only), under it the case-folded names are pairwise distinct,
and in particular saving the same name and path twice leaves exactly one
record for that name (bot.py lines 13-22, 35-41). -/
theorem catalog_unique_name_invariant :
    WF (init_db none) ∧
    (∀ t, WF t → WF (init_db (some t))) ∧
    (∀ t n p, WF t → WF (save_image t n p)) ∧
    (∀ t n p, WF t →
      ((save_image t n p).map fun r => pyLower r.name).Nodup) ∧
    (∀ t n p,
      countFor (save_image (save_image t n p) n p) (pyLower n) = 1) := by
  refine ⟨⟨List.nodup_nil, fun r hr => absurd hr (List.not_mem_nil r)⟩,
    fun t h => h,
    fun t n p h => WF_save_image t n p h,
    fun t n p h => WF_nodup_folded _ (WF_save_image t n p h),
    fun t n p => ?_⟩
  unfold countFor
  rw [filter_save_image]
  rfl

/-- C3 witness: the invariant holds concretely after one upsert on the
freshly initialized store. -/
theorem catalog_unique_name_invariant_witness :
    WF (save_image (init_db none) "Cat" "x.jpg") ∧
    countFor (save_image (save_image [] "Cat" "x.jpg") "Cat" "x.jpg")
      (pyLower "Cat") = 1 :=
  ⟨catalog_unique_name_invariant.2.2.1 (init_db none) "Cat" "x.jpg"
      ⟨List.nodup_nil, fun r hr => absurd hr (List.not_mem_nil r)⟩,
   catalog_unique_name_invariant.2.2.2.2 [] "Cat" "x.jpg"⟩

/-- C4 counterexample: the id is not immutable.  On the empty store,
saving name `a` assigns id 1; overwriting `a` deletes that row and
inserts one with the fresh id 2 (SQLite `INSERT OR REPLACE` with an
unsupplied `INTEGER PRIMARY KEY`, bot.py lines 35-41). -/
theorem replace_changes_id_counterexample :
    ((save_image [] "a" "p1").find? fun r => r.name == "a") =
      some ⟨1, "a", "p1"⟩ ∧
    ((save_image (save_image [] "a" "p1") "a" "p2").find?
      fun r => r.name == "a") = some ⟨2, "a", "p2"⟩ := by
  decide

/-- C4 amended: when `save_image` overwrites the record of a name already
in the catalog the record does not keep its id; the surviving record for
the name carries the fresh id `maxId t + 1`. -/
theorem replace_assigns_fresh_id (t : Table) (n p : String) :
    ((save_image t n p).find? fun r => r.name == pyLower n).map
      ImageRecord.id = some (maxId t + 1) := by
  rw [find?_save_image]
  rfl

theorem countFor_save_image_folded (t : Table) (n p : String)
    (h : pyLower n = n) :
    countFor (save_image t n p) n = 1 := by
  have hf := filter_save_image t n p
  rw [h] at hf
  unfold countFor
  rw [hf]
  rfl

/-- C5 counterexample: an admin upload captioned `cat` whose `.jpg`
attempt fails after partially writing `img/cat.jpg` and whose `.png`
attempt fails before creating a file.  Every extension attempt fails and
the handler replies the generic failure with zero catalog records, but
the partially written file is not cleaned up — the filesystem gained
`img/cat.jpg`, refuting "zero new files on disk, with partial writes
from failed attempts cleaned up" (bot.py lines 95-96 have no cleanup). -/
theorem upload_partial_write_not_cleaned_counterexample :
    handle_upload_pw ⟨7, "img", [".jpg", ".png"]⟩
      (fun _ fp => if fp == "img/cat.jpg" then DlOutcome.failPartial
        else DlOutcome.failClean)
      ⟨7, ["fid"], none, some "cat"⟩ [] [] =
      ⟨"❌ Не удалось сохранить файл", [], ["img/cat.jpg"]⟩ := by
  decide

/-- C5 amended: when every extension attempt of a validated admin upload
fails, the handler replies with the generic failure message and creates
zero new catalog records; but partial writes from failed attempts are
not cleaned up: every file a failed attempt partially wrote remains on
disk, the new files are exactly those partial writes, and the filesystem
is unchanged only when no failed attempt created a file (the read-only
directory scenario) (bot.py lines 81-98). -/
theorem upload_all_fail_no_record_partials_remain (cfg : Config)
    (dl : String → String → DlOutcome) (msg : UploadMsg) (db : Table)
    (fs : List String)
    (h1 : msg.from_id = cfg.ADMIN_ID)
    (h2 : ¬(msg.photo = [] ∧ msg.document = none))
    (h3 : pyLower (pyStrip (msg.caption.getD "")) ≠ "")
    (hfail : ∀ ext ∈ cfg.ALLOWED_EXTENSIONS,
      dl (uploadFileId msg)
        (pathJoin cfg.IMAGES_DIR
          (pyLower (pyStrip (msg.caption.getD "")) ++ ext)) ≠
        DlOutcome.ok) :
    (handle_upload_pw cfg dl msg db fs).reply =
        "❌ Не удалось сохранить файл" ∧
    (handle_upload_pw cfg dl msg db fs).db = db ∧
    (∀ q ∈ (handle_upload_pw cfg dl msg db fs).fs, q ∈ fs ∨
      ∃ ext ∈ cfg.ALLOWED_EXTENSIONS,
        q = pathJoin cfg.IMAGES_DIR
          (pyLower (pyStrip (msg.caption.getD "")) ++ ext) ∧
        dl (uploadFileId msg) q = DlOutcome.failPartial) ∧
    (∀ ext ∈ cfg.ALLOWED_EXTENSIONS,
      dl (uploadFileId msg)
        (pathJoin cfg.IMAGES_DIR
          (pyLower (pyStrip (msg.caption.getD "")) ++ ext)) =
        DlOutcome.failPartial →
      pathJoin cfg.IMAGES_DIR
        (pyLower (pyStrip (msg.caption.getD "")) ++ ext) ∈
        (handle_upload_pw cfg dl msg db fs).fs) ∧
    ((∀ ext ∈ cfg.ALLOWED_EXTENSIONS,
      dl (uploadFileId msg)
        (pathJoin cfg.IMAGES_DIR
          (pyLower (pyStrip (msg.caption.getD "")) ++ ext)) =
        DlOutcome.failClean) →
      (handle_upload_pw cfg dl msg db fs).fs = fs) := by
  rw [handle_upload_pw_guards_pass cfg dl msg db fs h1 h2 h3]
  have h := upload_loop_pw_all_fail cfg dl (uploadFileId msg)
    (pyLower (pyStrip (msg.caption.getD ""))) db cfg.ALLOWED_EXTENSIONS
    fs hfail
  exact ⟨h.1, h.2.1, h.2.2.2.1, h.2.2.2.2.1, h.2.2.2.2.2⟩

/-- C5 witness: a concrete all-fail run where the `.jpg` attempt
partially writes: the reply is the failure message, the catalog stays
empty, and the partial file is still on disk. -/
theorem upload_all_fail_no_record_partials_remain_witness :
    (handle_upload_pw ⟨7, "img", [".jpg", ".png"]⟩
      (fun _ fp => if fp == "img/cat.jpg" then DlOutcome.failPartial
        else DlOutcome.failClean)
      ⟨7, ["fid"], none, some " Cat "⟩ [] []).reply =
        "❌ Не удалось сохранить файл" ∧
    (handle_upload_pw ⟨7, "img", [".jpg", ".png"]⟩
      (fun _ fp => if fp == "img/cat.jpg" then DlOutcome.failPartial
        else DlOutcome.failClean)
      ⟨7, ["fid"], none, some " Cat "⟩ [] []).db = [] ∧
    pathJoin "img" (pyLower (pyStrip " Cat ") ++ ".jpg") ∈
      (handle_upload_pw ⟨7, "img", [".jpg", ".png"]⟩
        (fun _ fp => if fp == "img/cat.jpg" then DlOutcome.failPartial
          else DlOutcome.failClean)
        ⟨7, ["fid"], none, some " Cat "⟩ [] []).fs :=
  have h := upload_all_fail_no_record_partials_remain
    ⟨7, "img", [".jpg", ".png"]⟩
    (fun _ fp => if fp == "img/cat.jpg" then DlOutcome.failPartial
      else DlOutcome.failClean)
    ⟨7, ["fid"], none, some " Cat "⟩ [] [] rfl (by decide) (by decide)
    (by decide)
  ⟨h.1, h.2.1, h.2.2.2.1 ".jpg" (by decide) (by decide)⟩

/-- C6: a non-admin upload is rejected with a user-visible message and
neither the catalog nor the filesystem changes (bot.py lines 64-66). -/
theorem upload_non_admin_rejected (cfg : Config)
    (dl : String → String → Bool) (msg : UploadMsg) (db : Table)
    (fs : List String) (h : msg.from_id ≠ cfg.ADMIN_ID) :
    handle_upload cfg dl msg db fs = ⟨"🚫 Только для админа", db, fs⟩ := by
  rw [handle_upload, if_pos h]

/-- C6 witness: user 8 uploading against admin 7 is rejected. -/
theorem upload_non_admin_rejected_witness :
    handle_upload ⟨7, "img", [".jpg"]⟩ (fun _ _ => true)
      ⟨8, ["fid"], none, some "cat"⟩ [⟨1, "cat", "img/cat.jpg"⟩] [] =
      ⟨"🚫 Только для админа", [⟨1, "cat", "img/cat.jpg"⟩], []⟩ :=
  upload_non_admin_rejected ⟨7, "img", [".jpg"]⟩ (fun _ _ => true)
    ⟨8, ["fid"], none, some "cat"⟩ [⟨1, "cat", "img/cat.jpg"⟩] []
    (by decide)

/-- C7: an admin upload with no image-like attachment, or with a caption
that case-folds and strips to nothing, is rejected with the message
naming the missing piece, and neither the catalog nor the filesystem
changes (bot.py lines 68-75). -/
theorem upload_missing_attachment_or_caption_rejected (cfg : Config)
    (dl : String → String → Bool) (msg : UploadMsg) (db : Table)
    (fs : List String) (h : msg.from_id = cfg.ADMIN_ID) :
    ((msg.photo = [] ∧ msg.document = none) →
      handle_upload cfg dl msg db fs =
        ⟨"❌ Отправьте изображение с названием", db, fs⟩) ∧
    (¬(msg.photo = [] ∧ msg.document = none) →
      pyLower (pyStrip (msg.caption.getD "")) = "" →
      handle_upload cfg dl msg db fs =
        ⟨"❌ Укажите название в подписи", db, fs⟩) := by
  constructor
  · intro h2
    rw [handle_upload, if_neg (by simp [h]), if_pos h2]
  · intro h2 h3
    rw [handle_upload, if_neg (by simp [h]), if_neg h2, if_pos h3]

/-- C7 witness: both rejection shapes at concrete messages. -/
theorem upload_missing_attachment_or_caption_rejected_witness :
    handle_upload ⟨7, "img", [".jpg"]⟩ (fun _ _ => true)
      ⟨7, [], none, some "cat"⟩ [] [] =
      ⟨"❌ Отправьте изображение с названием", [], []⟩ ∧
    handle_upload ⟨7, "img", [".jpg"]⟩ (fun _ _ => true)
      ⟨7, ["fid"], none, none⟩ [] [] =
      ⟨"❌ Укажите название в подписи", [], []⟩ :=
  ⟨(upload_missing_attachment_or_caption_rejected ⟨7, "img", [".jpg"]⟩
      (fun _ _ => true) ⟨7, [], none, some "cat"⟩ [] [] rfl).1
      (by decide),
   (upload_missing_attachment_or_caption_rejected ⟨7, "img", [".jpg"]⟩
      (fun _ _ => true) ⟨7, ["fid"], none, none⟩ [] [] rfl).2
      (by decide) (by decide)⟩

/-- C8: on a filesystem whose paths are non-empty strings, a text lookup
replies not-found exactly when the case-folded key has no record or the
stored path is missing from disk; when the record exists and its path is
on disk the asset is streamed back; and the handler always returns one of
the two replies, so nothing escapes to the transport (bot.py lines
100-109, 24-33). -/
theorem request_not_found_iff (db : Table) (fs : List String)
    (text : String) (hfs : "" ∉ fs) :
    (handle_request db fs text = .text "❌ Изображение не найдено" ↔
      find_image db (pyLower (pyStrip text)) = none ∨
        ∃ p, find_image db (pyLower (pyStrip text)) = some p ∧ p ∉ fs) ∧
    (∀ p, find_image db (pyLower (pyStrip text)) = some p → p ∈ fs →
      handle_request db fs text = .photo p) ∧
    ((∃ p, handle_request db fs text = .photo p) ∨
      handle_request db fs text = .text "❌ Изображение не найдено") := by
  cases hf : find_image db (pyLower (pyStrip text)) with
  | none =>
    have hr : handle_request db fs text =
        .text "❌ Изображение не найдено" := by
      simp only [handle_request, hf]
    refine ⟨by simp [hr], fun p hp => absurd hp (by simp), Or.inr hr⟩
  | some p =>
    by_cases hmem : p ∈ fs
    · have hne : p ≠ "" := fun hp => hfs (hp ▸ hmem)
      have hr : handle_request db fs text = .photo p := by
        simp only [handle_request, hf]
        rw [if_pos ⟨hne, hmem⟩]
      refine ⟨by simp [hr, hmem], fun q hq hqm => ?_, Or.inl ⟨p, hr⟩⟩
      rw [Option.some_inj] at hq
      rw [hq] at hr
      exact hr
    · have hr : handle_request db fs text =
          .text "❌ Изображение не найдено" := by
        simp only [handle_request, hf]
        rw [if_neg fun hc => hmem hc.2]
      refine ⟨by simp [hr, hmem], fun q hq hqm => ?_, Or.inr hr⟩
      rw [Option.some_inj] at hq
      rw [← hq] at hqm
      exact absurd hqm hmem

/-- C8 witness: looking up a never-inserted name replies not-found. -/
theorem request_not_found_iff_witness :
    handle_request [] ["img/cat.jpg"] "ghost" =
      .text "❌ Изображение не найдено" :=
  (request_not_found_iff [] ["img/cat.jpg"] "ghost" (by decide)).1.mpr
    (Or.inl (by decide))

/-- C9: a validated admin upload whose first working extension is `e`
stops there: the result is the success reply for `base ++ e`, the file at
`path` is the only new file on disk, and the catalog holds exactly one
record for the base name, whose stored path is that file (bot.py lines
81-98). -/
theorem upload_first_success_single_file_and_record (cfg : Config)
    (dl : String → String → Bool) (msg : UploadMsg) (db : Table)
    (fs : List String) (e base path : String)
    (h1 : msg.from_id = cfg.ADMIN_ID)
    (h2 : ¬(msg.photo = [] ∧ msg.document = none))
    (hbase : base = pyLower (pyStrip (msg.caption.getD "")))
    (h3 : base ≠ "")
    (hpath : path = pathJoin cfg.IMAGES_DIR (base ++ e))
    (hfind : cfg.ALLOWED_EXTENSIONS.find?
      (fun x => dl (uploadFileId msg)
        (pathJoin cfg.IMAGES_DIR (base ++ x))) = some e) :
    handle_upload cfg dl msg db fs =
      ⟨"✅ Сохранено как: " ++ (base ++ e), save_image db base path,
        if path ∈ fs then fs else path :: fs⟩ ∧
    countFor (handle_upload cfg dl msg db fs).db base = 1 ∧
    find_image (handle_upload cfg dl msg db fs).db base = some path ∧
    path ∈ (handle_upload cfg dl msg db fs).fs ∧
    (∀ q ∈ (handle_upload cfg dl msg db fs).fs, q ∈ fs ∨ q = path) := by
  subst hbase
  subst hpath
  have hmain := handle_upload_guards_pass cfg dl msg db fs h1 h2 h3
  rw [upload_loop_first_success cfg dl (uploadFileId msg) _ db fs
    cfg.ALLOWED_EXTENSIONS e hfind] at hmain
  refine ⟨hmain, ?_, ?_, ?_, ?_⟩
  · rw [hmain]
    exact countFor_save_image_folded db _ _ (pyLower_pyLower _)
  · rw [hmain]
    exact find_image_save_image db _ _ _ rfl
  · rw [hmain]
    by_cases hm : pathJoin cfg.IMAGES_DIR
        (pyLower (pyStrip (msg.caption.getD "")) ++ e) ∈ fs
    · simp [hm]
    · simp [hm]
  · rw [hmain]
    intro q hq
    by_cases hm : pathJoin cfg.IMAGES_DIR
        (pyLower (pyStrip (msg.caption.getD "")) ++ e) ∈ fs
    · simp only [hm, if_true] at hq
      exact Or.inl hq
    · simp only [hm, if_false] at hq
      rcases List.mem_cons.mp hq with hq | hq
      · exact Or.inr hq
      · exact Or.inl hq

/-- C9 witness: a concrete upload where `.jpg` fails and `.png` works. -/
theorem upload_first_success_single_file_and_record_witness :
    handle_upload ⟨7, "img", [".jpg", ".png"]⟩
      (fun _ fp => fp == "img/cat.png") ⟨7, ["fid"], none, some " Cat "⟩
      [] [] =
      ⟨"✅ Сохранено как: " ++ ("cat" ++ ".png"),
        save_image [] "cat" "img/cat.png",
        if ("img/cat.png" : String) ∈ ([] : List String) then []
        else ["img/cat.png"]⟩ :=
  (upload_first_success_single_file_and_record ⟨7, "img", [".jpg", ".png"]⟩
    (fun _ fp => fp == "img/cat.png") ⟨7, ["fid"], none, some " Cat "⟩
    [] [] ".png" "cat" "img/cat.png" rfl (by decide) (by decide)
    (by decide) (by decide) (by decide)).1

/-- C10: both public text inputs are whitespace-stripped before
case-folding: an admin upload whose caption is only whitespace is
rejected as having no name, and a lookup of a name padded with
whitespace resolves exactly as the lookup of the name itself (bot.py
lines 72-75, 100-103). -/
theorem whitespace_stripped_before_fold :
    (∀ (cfg : Config) (dl : String → String → Bool) (msg : UploadMsg)
      (db : Table) (fs : List String),
      msg.from_id = cfg.ADMIN_ID →
      ¬(msg.photo = [] ∧ msg.document = none) →
      allWhitespace (msg.caption.getD "") →
      handle_upload cfg dl msg db fs =
        ⟨"❌ Укажите название в подписи", db, fs⟩) ∧
    (∀ (db : Table) (fs : List String) (n w1 w2 : String),
      allWhitespace w1 → allWhitespace w2 →
      handle_request db fs (w1 ++ n ++ w2) = handle_request db fs n) := by
  constructor
  · intro cfg dl msg db fs h1 h2 hws
    have hb : pyLower (pyStrip (msg.caption.getD "")) = "" := by
      rw [pyStrip_all_whitespace _ hws]
      rfl
    rw [handle_upload, if_neg (by simp [h1]), if_neg h2, if_pos hb]
  · intro db fs n w1 w2 hw1 hw2
    have hs : pyStrip (w1 ++ n ++ w2) = pyStrip n := pyStrip_pad w1 w2 n hw1 hw2
    simp only [handle_request, hs]

/-- C10 witness: a whitespace-only caption is rejected, and the lookup of
a padded name equals the lookup of the bare name. -/
theorem whitespace_stripped_before_fold_witness :
    handle_upload ⟨7, "img", [".jpg"]⟩ (fun _ _ => true)
      ⟨7, ["fid"], none, some " \t "⟩ [] [] =
      ⟨"❌ Укажите название в подписи", [], []⟩ ∧
    handle_request [⟨1, "cat", "img/cat.jpg"⟩] ["img/cat.jpg"]
      (" " ++ "CAT" ++ "\t") =
      handle_request [⟨1, "cat", "img/cat.jpg"⟩] ["img/cat.jpg"] "CAT" :=
  ⟨whitespace_stripped_before_fold.1 ⟨7, "img", [".jpg"]⟩ (fun _ _ => true)
      ⟨7, ["fid"], none, some " \t "⟩ [] [] rfl (by decide) (by decide),
   whitespace_stripped_before_fold.2 [⟨1, "cat", "img/cat.jpg"⟩]
      ["img/cat.jpg"] "CAT" " " "\t" (by decide) (by decide)⟩

end ImageBot
